import Mathlib

/-!
Shallow embedding of the retrieval core of the AI-Support-Agent repository
(`rag_system.py` and the tool-calling conversation loop of `api.py`), with
theorems settling the frozen claims about it.

Numeric modelling: embedding vectors are lists of rationals and the squared
L2 distance is computed exactly; overflow and rounding of IEEE floats play
no role in any claim settled here.  The FAISS library calls
(`IndexFlatL2.add`, `IndexFlatL2.search`, `write_index`/`read_index`) are
external collaborators; they are embedded by their documented semantics:
exact brute-force k-nearest-neighbour search on squared L2 distance with
ties broken by ascending insertion position, results padded with label `-1`
and distance `FLT_MAX` when fewer than `k` entries exist, `add` asserting
that the batch dimension equals the index dimension, and the index file
format round-tripping exactly.
-/

namespace RagSpec

/-! ## Chunker (`DocumentChunker` in `rag_system.py`) -/

/-- Embedding of `DocumentChunker.__init__`: the constructor stores
`chunk_size` and `overlap` unchanged and performs no validation at all
(`rag_system.py` lines 24-26). -/
structure DocumentChunker where
  chunk_size : ℕ
  overlap : ℕ
deriving Repr, DecidableEq

/-- Embedding of the constructor call `DocumentChunker(chunk_size, overlap)`.
It is a total function: every argument pair is accepted. -/
def DocumentChunker.init (chunk_size overlap : ℕ) : DocumentChunker :=
  { chunk_size := chunk_size, overlap := overlap }

/-- ASCII whitespace recognised by Python's `str.split()` (the model covers
the ASCII subset; no claim depends on the exotic Unicode whitespace
characters Python additionally strips). -/
def isPyWhitespace (c : Char) : Bool :=
  c = ' ' || c = '\t' || c = '\n' || c = '\r' || c = '\x0b' || c = '\x0c'

/-- Helper for `pySplit`: walks the character list accumulating the current
word (in reverse); whitespace ends the current word, and empty words are
never emitted, exactly as Python's argument-less `str.split()`. -/
def splitWordsAux : List Char → List Char → List String
  | [], acc => if acc = [] then [] else [String.mk acc.reverse]
  | c :: cs, acc =>
    if isPyWhitespace c then
      (if acc = [] then [] else [String.mk acc.reverse]) ++ splitWordsAux cs []
    else
      splitWordsAux cs (c :: acc)

/-- Embedding of Python `text.split()` (no separator argument): split on
runs of whitespace, discarding empty strings, so leading and trailing
whitespace produce no words. -/
def pySplit (s : String) : List String :=
  splitWordsAux s.data []

/-- Embedding of Python `range(0, stop, step)` for a positive `step`
(the only way `chunk_text` uses it under the `overlap < chunk_size`
hypothesis of the claims): the list `[0, step, 2*step, ...]` of all
multiples of `step` below `stop`. -/
def pyRangeStep (stop step : ℕ) : List ℕ :=
  (List.range ((stop + step - 1) / step)).map (· * step)

/-- Chunk record built by `DocumentChunker.chunk_text`
(`rag_system.py` lines 37-42).  Metadata is the Python dict, embedded as an
association list. -/
structure Chunk where
  text : String
  metadata : List (String × String)
  start_idx : ℕ
  end_idx : ℕ
deriving Repr, DecidableEq

/-- Embedding of `DocumentChunker.chunk_text` (`rag_system.py` lines
28-45): split into words, then for each window start `i` produced by
`range(0, len(words), chunk_size - overlap)` emit the words
`words[i : i + chunk_size]` joined by single spaces, with
`start_idx = i` and `end_idx = i + len(chunk_words)`.  The Python default
`metadata or {}` is embedded as `Option.getD` with the empty association
list. -/
def DocumentChunker.chunk_text (self : DocumentChunker) (text : String)
    (metadata : Option (List (String × String))) : List Chunk :=
  (pyRangeStep (pySplit text).length (self.chunk_size - self.overlap)).map
    (fun i =>
      { text := String.intercalate " "
          (((pySplit text).drop i).take self.chunk_size)
        metadata := metadata.getD []
        start_idx := i
        end_idx := i + (((pySplit text).drop i).take self.chunk_size).length })

/-! ## Vector store (`FAISSVectorStore` in `rag_system.py`) -/

/-- Squared L2 distance between two vectors, the metric of
`faiss.IndexFlatL2`. -/
def sqL2 (x y : List ℚ) : ℚ :=
  (List.zipWith (fun a b => (a - b) ^ 2) x y).sum

/-- Exact rational value of the IEEE single-precision `FLT_MAX`
(`(2 - 2^-23) * 2^127`), the distance FAISS reports for the `-1` padding
entries when a query asks for more neighbours than the index holds. -/
def floatMax : ℚ := 2 ^ 128 - 2 ^ 104

/-- Ordering used by the FAISS flat index to rank candidates: ascending
squared distance, with equal distances broken by ascending insertion
position (stable, deterministic). -/
def faissLE (a b : ℕ × ℚ) : Prop :=
  a.2 < b.2 ∨ (a.2 = b.2 ∧ a.1 ≤ b.1)

instance : DecidableRel faissLE := fun a b => by
  unfold faissLE
  exact inferInstance

/-- Embedding of `faiss.IndexFlatL2.search` on one query vector: score
every stored vector by squared L2 distance, rank by distance with ties
broken by ascending insertion position, keep the first `k`, and pad to
exactly `k` result slots with label `-1` and distance `FLT_MAX` when the
index holds fewer than `k` entries. -/
def faissSearch (entries : List (List ℚ)) (q : List ℚ) (k : ℕ) :
    List (Int × ℚ) :=
  let scored := (entries.map (sqL2 q)).enum
  let ranked := scored.insertionSort faissLE
  let top := (ranked.take k).map (fun p => ((p.1 : Int), p.2))
  top ++ List.replicate (k - top.length) (-1, floatMax)

/-- Embedding of Python list subscription `l[i]` with a possibly negative
index: non-negative indices address from the front, indices in
`[-len(l), -1]` address from the back, anything else is an `IndexError`
(`none`). -/
def pyGetElem {α : Type} (l : List α) (i : Int) : Option α :=
  if 0 ≤ i then l.get? i.toNat
  else if -i ≤ (l.length : Int) then l.get? (l.length - (-i).toNat)
  else none

/-- Embedding of `FAISSVectorStore` state (`rag_system.py` lines 91-96).
`dimension` is the Python attribute `self.dimension`; `indexDim` is the
FAISS index's own `d` attribute (the two coincide at construction, and
`load` replaces only the FAISS index, as the source does); `entries` are
the stored vectors in insertion order; `chunks` is `self.chunks`. -/
structure FAISSVectorStore where
  dimension : ℕ
  indexDim : ℕ
  entries : List (List ℚ)
  chunks : List Chunk
deriving Repr, DecidableEq

/-- Embedding of `FAISSVectorStore.__init__(dimension)`: fresh empty index
of the given dimension. -/
def FAISSVectorStore.init (d : ℕ) : FAISSVectorStore :=
  { dimension := d, indexDim := d, entries := [], chunks := [] }

/-- Embedding of `FAISSVectorStore.add_embeddings` (`rag_system.py` lines
98-101).  `self.index.add(embeddings)` asserts that the batch's vector
dimension equals the index dimension and raises before mutating anything
when it does not; only on success does `self.chunks.extend(chunks)` run.
The returned pair is the post-call state together with the raised error,
if any. -/
def FAISSVectorStore.add_embeddings (st : FAISSVectorStore)
    (embeddings : List (List ℚ)) (chunks : List Chunk) :
    FAISSVectorStore × Option String :=
  if embeddings.all (fun v => v.length = st.indexDim) then
    ({ st with entries := st.entries ++ embeddings,
               chunks := st.chunks ++ chunks }, none)
  else
    (st, some "AssertionError: vector dimension does not match index dimension")

/-- Embedding of the result-collection loop of `FAISSVectorStore.search`
(`rag_system.py` lines 112-115): for each `(idx, distance)` pair, the
guard `idx < len(self.chunks)` is a signed comparison, after which
`self.chunks[idx]` is a Python subscription — a negative `idx` addresses
from the back and raises `IndexError` only when out of range on an empty
list. -/
def searchLoop (chunks : List Chunk) :
    List (Int × ℚ) → Except String (List (Chunk × ℚ))
  | [] => .ok []
  | (idx, dist) :: rest =>
    if idx < (chunks.length : Int) then
      match pyGetElem chunks idx with
      | some c =>
        match searchLoop chunks rest with
        | .ok rs => .ok ((c, dist) :: rs)
        | .error e => .error e
      | none => .error "IndexError: list index out of range"
    else
      searchLoop chunks rest

/-- Embedding of `FAISSVectorStore.search` (`rag_system.py` lines
103-117): run the FAISS query, then collect `(chunk, distance)` pairs with
the `idx < len(self.chunks)` guard. -/
def FAISSVectorStore.search (st : FAISSVectorStore) (q : List ℚ) (k : ℕ) :
    Except String (List (Chunk × ℚ)) :=
  searchLoop st.chunks (faissSearch st.entries q k)

/-- Durable form of a vector store as written by `FAISSVectorStore.save`
(`rag_system.py` lines 119-123): the FAISS index file carries the index
dimension and the stored vectors in order; the pickle file carries the
chunk list. -/
structure IndexSnapshot where
  d : ℕ
  vectors : List (List ℚ)
  chunks : List Chunk
deriving Repr, DecidableEq

/-- Embedding of `FAISSVectorStore.save`: `faiss.write_index` serialises
the index (dimension and vectors, in order) and `pickle.dump` the
chunks. -/
def FAISSVectorStore.save (st : FAISSVectorStore) : IndexSnapshot :=
  { d := st.indexDim, vectors := st.entries, chunks := st.chunks }

/-- Embedding of `FAISSVectorStore.load` (`rag_system.py` lines 125-129):
replaces `self.index` and `self.chunks` from the files; note the source
does not touch `self.dimension`, and neither does the model. -/
def FAISSVectorStore.load (st : FAISSVectorStore) (snap : IndexSnapshot) :
    FAISSVectorStore :=
  { st with indexDim := snap.d, entries := snap.vectors, chunks := snap.chunks }

/-- State of a store after a sequence of `add_embeddings` calls on a fresh
index of dimension `d` (errors from a batch leave the state unchanged,
exactly as the exception does in the source). -/
def applyInserts (d : ℕ)
    (batches : List (List (List ℚ) × List Chunk)) : FAISSVectorStore :=
  batches.foldl (fun st b => (st.add_embeddings b.1 b.2).1)
    (FAISSVectorStore.init d)

/-! ## Retrieval engine (`RAGSystem` in `rag_system.py`) -/

/-- Record built for each retrieval hit by `RAGSystem.retrieve`
(`rag_system.py` lines 196-201). -/
structure RetrievedChunk where
  text : String
  source : String
  relevance_score : ℚ
deriving Repr, DecidableEq

/-- Distance-to-similarity transform of `RAGSystem.retrieve`
(`rag_system.py` line 200): `1 / (1 + distance)`. -/
def relevance_score (distance : ℚ) : ℚ :=
  1 / (1 + distance)

/-- Embedding of the `RAGSystem` state relevant to retrieval
(`rag_system.py` lines 135-140): `self.vector_store` starts as `None` and
is created only by the first document ingestion or an index load. -/
structure RAGSystem where
  vector_store : Option FAISSVectorStore
  documents_processed : ℕ
deriving Repr, DecidableEq

/-- Embedding of `RAGSystem.retrieve` (`rag_system.py` lines 186-203).
The embedding client is passed as the function `embed` (external
collaborator).  `self.vector_store.search(...)` on a `None` store raises
`AttributeError`; otherwise each `(chunk, distance)` hit is formatted with
`chunk['metadata'].get('source', 'unknown')` and
`relevance_score = 1 / (1 + distance)`. -/
def RAGSystem.retrieve (sys : RAGSystem) (embed : String → List ℚ)
    (query : String) (k : ℕ) : Except String (List RetrievedChunk) :=
  let query_embedding := embed query
  match sys.vector_store with
  | none => .error "AttributeError: NoneType object has no attribute search"
  | some vs =>
    match vs.search query_embedding k with
    | .error e => .error e
    | .ok results =>
      .ok (results.map (fun p =>
        { text := p.1.text
          source := (List.lookup "source" p.1.metadata).getD "unknown"
          relevance_score := relevance_score p.2 }))

/-! ## Tool-calling conversation loop (`RAGAgent` and `/ask` in `api.py`) -/

/-- Role tag of a conversation turn as stored in
`RAGAgent.conversation_history`. -/
inductive Role
  | system
  | user
  | assistant
  | tool
deriving Repr, DecidableEq

/-- Tool call record as appended to the assistant turn in
`RAGAgent.process_query` (`api.py` lines 172-182): id, function name and
raw JSON argument string. -/
structure ToolCall where
  id : String
  fname : String
  arguments : String
deriving Repr, DecidableEq

/-- Conversation turn as stored in `RAGAgent.conversation_history`:
a role, text content, and (for the assistant turn that requests tools) the
tool-call list, plus the `tool_call_id` back-reference on tool turns. -/
structure Msg where
  role : Role
  content : String
  tool_calls : List ToolCall := []
  tool_call_id : Option String := none
deriving Repr, DecidableEq

/-- Response of one chat-completion call of the external language-model
client: the message text and the (possibly empty) tool-call list. -/
structure LLMMessage where
  content : String
  tool_calls : List ToolCall
deriving Repr, DecidableEq

/-- System prompt sent (but never stored in the history) on every
chat-completion call of `RAGAgent.process_query` (`api.py` lines
154-157 and 204-207). -/
def systemMsg : Msg :=
  { role := .system,
    content := "You are a helpful AI assistant. Use the search tool when users ask about company information. For general questions, answer directly." }

/-- Embedding of `RAGAgent.process_query` (`api.py` lines 142-226).  The
external language-model client is the function `complete` whose boolean
argument records whether the tool schema was passed (`True` on the first
call, `False` on the forced-final second call); `runTool` is the
composition of `json.loads` on the raw argument string with
`RAGAgent.search_documents` (external retrieval path).  Returns the answer
text and the new `conversation_history`. -/
def RAGAgent.process_query (complete : Bool → List Msg → LLMMessage)
    (runTool : String → String) (history : List Msg) (query : String) :
    String × List Msg :=
  let h1 := history ++ [{ role := .user, content := query }]
  let message := complete true (systemMsg :: h1)
  if message.tool_calls = [] then
    (message.content, h1 ++ [{ role := .assistant, content := message.content }])
  else
    let h2 := h1 ++ [{ role := .assistant, content := message.content,
                       tool_calls := message.tool_calls }]
    let h3 := h2 ++ ((message.tool_calls.filter
        (fun tc => tc.fname = "search_documents")).map (fun tc =>
      { role := .tool, content := runTool tc.arguments,
        tool_call_id := some tc.id }))
    let finalMessage := complete false (systemMsg :: h3)
    (finalMessage.content,
     h3 ++ [{ role := .assistant, content := finalMessage.content }])

/-- Embedding of the provenance determination of the `/ask` endpoint
(`api.py` lines 284-288): scan the agent's entire conversation history and
tag `"documents"` as soon as any turn has role `"tool"`, else `"llm"`. -/
def determineSource (history : List Msg) : String :=
  if history.any (fun m => m.role = .tool) then "documents" else "llm"

/-- Embedding of one `/ask` request against an existing session's agent:
process the query, then determine the provenance tag from the agent's full
conversation history.  Returns (answer, source, new history). -/
def ask (complete : Bool → List Msg → LLMMessage) (runTool : String → String)
    (history : List Msg) (query : String) : String × String × List Msg :=
  let r := RAGAgent.process_query complete runTool history query
  (r.1, determineSource r.2, r.2)

/-- Concrete language-model behaviour used as a counterexample session:
requests a `search_documents` tool call exactly when tools are offered and
the latest turn is the user message `"T"`; otherwise answers directly. -/
def cexComplete (toolsEnabled : Bool) (h : List Msg) : LLMMessage :=
  if toolsEnabled &&
      ((h.getLast?).map
        (fun m => m.role == .user && m.content == "T")).getD false then
    { content := "", tool_calls := [{ id := "call_1", fname := "search_documents", arguments := "T" }] }
  else
    { content := "plain answer", tool_calls := [] }

/-- Concrete language-model behaviour realising the spec scenario: requests
a `search_documents` tool call exactly when tools are offered and the user
has asked `"How many remote days?"`; answers `"What is AI?"` (and the
forced final call) directly. -/
def scenComplete (toolsEnabled : Bool) (h : List Msg) : LLMMessage :=
  if toolsEnabled && h.any
      (fun m => m.role == .user && m.content == "How many remote days?") then
    { content := "", tool_calls := [{ id := "call_1", fname := "search_documents", arguments := "remote days" }] }
  else
    { content := "direct answer", tool_calls := [] }

/-- Concrete tool-execution behaviour for the demo sessions: every search
returns a fixed formatted result string. -/
def demoRunTool (args : String) : String :=
  "1. [Source: policy.txt] " ++ args

/-! ## Concrete fixtures used by witnesses and counterexamples -/

/-- Chunk carrying a `source` metadata key, as produced by
`RAGSystem.process_document`. -/
def sampleChunk : Chunk :=
  { text := "remote work is allowed three days a week",
    metadata := [("source", "policy.txt"), ("path", "documents/policy.txt")],
    start_idx := 0, end_idx := 8 }

/-- Chunk with empty metadata, as produced by
`DocumentChunker.chunk_text` with `metadata=None`. -/
def bareChunk : Chunk :=
  { text := "hello", metadata := [], start_idx := 0, end_idx := 1 }

/-- One-entry vector store of dimension 1 holding `sampleChunk`. -/
def demoStore : FAISSVectorStore :=
  { dimension := 1, indexDim := 1, entries := [[0]], chunks := [sampleChunk] }

/-- One-entry vector store of dimension 1 holding `bareChunk` (no
`source` metadata). -/
def bareStore : FAISSVectorStore :=
  { dimension := 1, indexDim := 1, entries := [[0]], chunks := [bareChunk] }

/-! ## Theorems -/

/-- C2: for every sequence of inserts into the vector index, saving the
index and chunks and loading them back yields a store with the same
dimension and the same entries (and chunks) in the same order, so every
query issued after the save/load round-trip returns results identical to
the same query issued before serialization. -/
theorem save_load_roundtrip (d : ℕ)
    (batches : List (List (List ℚ) × List Chunk)) :
    (applyInserts d batches).load (applyInserts d batches).save
        = applyInserts d batches ∧
    ((applyInserts d batches).load (applyInserts d batches).save).indexDim
        = (applyInserts d batches).indexDim ∧
    ((applyInserts d batches).load (applyInserts d batches).save).entries
        = (applyInserts d batches).entries ∧
    ((applyInserts d batches).load (applyInserts d batches).save).chunks
        = (applyInserts d batches).chunks ∧
    ∀ (q : List ℚ) (k : ℕ),
      ((applyInserts d batches).load (applyInserts d batches).save).search q k
          = (applyInserts d batches).search q k :=
  ⟨rfl, rfl, rfl, rfl, fun _ _ => rfl⟩

/-- C6 (code bug): `DocumentChunker.__init__` performs no validation — it
is a total function that accepts every `(chunk_size, overlap)` pair,
including `overlap ≥ chunk_size`; in particular the construction
`DocumentChunker(500, 500)` succeeds and stores both values, where the
spec requires rejection at construction time. -/
theorem chunker_ctor_never_rejects :
    DocumentChunker.init 500 500
        = { chunk_size := 500, overlap := 500 } ∧
    ∀ chunk_size overlap, DocumentChunker.init chunk_size overlap
        = { chunk_size := chunk_size, overlap := overlap } :=
  ⟨rfl, fun _ _ => rfl⟩

/-- C7: adding a non-empty batch of vectors whose common dimension differs
from the index's established dimension always fails with the
dimension-mismatch error, and the store after the failed call is unchanged
— in particular its entry count and chunk count are exactly what they were
before the call. -/
theorem add_embeddings_dimension_mismatch
    (st : FAISSVectorStore) (embeddings : List (List ℚ))
    (chunks : List Chunk) (d : ℕ)
    (hne : embeddings ≠ [])
    (hdim : ∀ v ∈ embeddings, v.length = d)
    (hd : d ≠ st.indexDim) :
    (st.add_embeddings embeddings chunks).2 =
      some "AssertionError: vector dimension does not match index dimension" ∧
    (st.add_embeddings embeddings chunks).1 = st ∧
    (st.add_embeddings embeddings chunks).1.entries.length
        = st.entries.length ∧
    (st.add_embeddings embeddings chunks).1.chunks.length
        = st.chunks.length := by
  have hall : ¬ (embeddings.all (fun v => v.length = st.indexDim) = true) := by
    intro hcontra
    rcases List.exists_mem_of_ne_nil embeddings hne with ⟨v, hv⟩
    have := (List.all_eq_true.mp hcontra) v hv
    have hvd := hdim v hv
    exact hd (by simpa [hvd] using this)
  unfold FAISSVectorStore.add_embeddings
  rw [if_neg hall]
  exact ⟨rfl, rfl, rfl, rfl⟩

/-- C7 witness: a fresh index of dimension 2 rejects a batch of
one-dimensional vectors and is left unchanged. -/
theorem add_embeddings_dimension_mismatch_witness :
    ([[(1 : ℚ)]] ≠ ([] : List (List ℚ))) ∧
    (∀ v ∈ [[(1 : ℚ)]], v.length = 1) ∧
    (1 ≠ (FAISSVectorStore.init 2).indexDim) ∧
    (((FAISSVectorStore.init 2).add_embeddings [[(1 : ℚ)]] []).2 =
        some "AssertionError: vector dimension does not match index dimension" ∧
      ((FAISSVectorStore.init 2).add_embeddings [[(1 : ℚ)]] []).1
          = FAISSVectorStore.init 2 ∧
      ((FAISSVectorStore.init 2).add_embeddings [[(1 : ℚ)]] []).1.entries.length
          = (FAISSVectorStore.init 2).entries.length ∧
      ((FAISSVectorStore.init 2).add_embeddings [[(1 : ℚ)]] []).1.chunks.length
          = (FAISSVectorStore.init 2).chunks.length) :=
  ⟨by decide, by decide, by decide,
    add_embeddings_dimension_mismatch (FAISSVectorStore.init 2) [[(1 : ℚ)]] [] 1
      (by decide) (by decide) (by decide)⟩

/-- C1 (code bug): on a store holding exactly one entry, a query with
`k = 2` does not return `min(k, entry_count) = 1` results: the FAISS
padding label `-1` passes the `idx < len(self.chunks)` guard and Python's
negative indexing turns `self.chunks[-1]` into the last stored chunk, so
the call returns two results — the real hit followed by a duplicate of the
last chunk at distance `FLT_MAX`. -/
theorem search_pads_with_last_chunk :
    (FAISSVectorStore.mk 1 1 [[0]] [sampleChunk]).search [0] 2 =
      .ok [(sampleChunk, 0), (sampleChunk, floatMax)] ∧
    min 2 (FAISSVectorStore.mk 1 1 [[0]] [sampleChunk]).entries.length = 1 :=
  ⟨by simp [FAISSVectorStore.search, faissSearch, sqL2, searchLoop, pyGetElem],
   by decide⟩

/-- C8 (code bug): `RAGSystem.retrieve` with an index holding no entries
does not return an empty sequence — before any document has been ingested
`self.vector_store` is `None` and the call raises `AttributeError`, and
even with an initialized but empty store the FAISS `-1` padding label
reaches `self.chunks[-1]` on the empty chunk list and raises
`IndexError`. -/
theorem retrieve_empty_index_raises :
    RAGSystem.retrieve { vector_store := none, documents_processed := 0 }
        (fun _ => [0]) "any question" 5 =
      .error "AttributeError: NoneType object has no attribute search" ∧
    RAGSystem.retrieve
        { vector_store := some (FAISSVectorStore.init 4),
          documents_processed := 0 }
        (fun _ => [0, 0, 0, 0]) "any question" 5 =
      .error "IndexError: list index out of range" :=
  ⟨rfl,
   by simp [RAGSystem.retrieve, FAISSVectorStore.search, FAISSVectorStore.init,
     faissSearch, sqL2, searchLoop, pyGetElem]⟩

/-- C3: every retrieval result of `RAGSystem.retrieve` carries
`relevance_score = 1 / (1 + distance)` for the distance of its matched
hit; the transform lies strictly in `(0, 1]` for every non-negative
distance (never exactly 0), and it is monotonically non-increasing as the
distance increases. -/
theorem retrieve_relevance_score_spec
    (sys : RAGSystem) (vs : FAISSVectorStore) (embed : String → List ℚ)
    (query : String) (k : ℕ) (l : List (Chunk × ℚ))
    (hvs : sys.vector_store = some vs)
    (hsearch : vs.search (embed query) k = .ok l) :
    sys.retrieve embed query k =
      .ok (l.map (fun p =>
        { text := p.1.text
          source := (List.lookup "source" p.1.metadata).getD "unknown"
          relevance_score := relevance_score p.2 })) ∧
    (∀ d : ℚ, 0 ≤ d → 0 < relevance_score d ∧ relevance_score d ≤ 1) ∧
    (∀ d₁ d₂ : ℚ, 0 ≤ d₁ → d₁ ≤ d₂ →
      relevance_score d₂ ≤ relevance_score d₁) := by
  refine ⟨?_, ?_, ?_⟩
  · simp only [RAGSystem.retrieve, hvs, hsearch]
  · intro d hd
    have hpos : (0 : ℚ) < 1 + d := by linarith
    unfold relevance_score
    constructor
    · exact div_pos one_pos hpos
    · rw [div_le_one hpos]
      linarith
  · intro d₁ d₂ hd₁ hle
    have hpos : (0 : ℚ) < 1 + d₁ := by linarith
    unfold relevance_score
    exact one_div_le_one_div_of_le hpos (by linarith)

/-- C3 witness: on a one-entry store the theorem's hypotheses hold
concretely and the retrieval result carries `1 / (1 + 0) = 1`. -/
theorem retrieve_relevance_score_witness :
    ({ vector_store := some demoStore, documents_processed := 1
        : RAGSystem }.vector_store = some demoStore) ∧
    (demoStore.search [0] 1 = .ok [(sampleChunk, 0)]) ∧
    (RAGSystem.retrieve
        { vector_store := some demoStore, documents_processed := 1 }
        (fun _ => [0]) "q" 1 =
      .ok ([(sampleChunk, (0 : ℚ))].map (fun p =>
        { text := p.1.text
          source := (List.lookup "source" p.1.metadata).getD "unknown"
          relevance_score := relevance_score p.2 })) ∧
    (∀ d : ℚ, 0 ≤ d → 0 < relevance_score d ∧ relevance_score d ≤ 1) ∧
    (∀ d₁ d₂ : ℚ, 0 ≤ d₁ → d₁ ≤ d₂ →
      relevance_score d₂ ≤ relevance_score d₁)) :=
  ⟨rfl,
    by simp [demoStore, FAISSVectorStore.search, faissSearch, sqL2,
      searchLoop, pyGetElem],
    retrieve_relevance_score_spec
      { vector_store := some demoStore, documents_processed := 1 }
      demoStore (fun _ => [0]) "q" 1 [(sampleChunk, 0)] rfl
      (by simp [demoStore, FAISSVectorStore.search, faissSearch, sqL2,
        searchLoop, pyGetElem])⟩

/-- C10: on any successful search, `RAGSystem.retrieve` succeeds and maps
each hit whose chunk metadata has no `source` key to the source string
`"unknown"`; a missing metadata key never makes `retrieve` fail. -/
theorem retrieve_missing_source_unknown
    (sys : RAGSystem) (vs : FAISSVectorStore) (embed : String → List ℚ)
    (query : String) (k : ℕ) (l : List (Chunk × ℚ))
    (hvs : sys.vector_store = some vs)
    (hsearch : vs.search (embed query) k = .ok l) :
    ∃ rs, sys.retrieve embed query k = .ok rs ∧ rs.length = l.length ∧
      ∀ j (hj : j < rs.length) (hj' : j < l.length),
        List.lookup "source" (l.get ⟨j, hj'⟩).1.metadata = none →
        (rs.get ⟨j, hj⟩).source = "unknown" := by
  refine ⟨l.map (fun p =>
    { text := p.1.text
      source := (List.lookup "source" p.1.metadata).getD "unknown"
      relevance_score := relevance_score p.2 }), ?_, ?_, ?_⟩
  · simp only [RAGSystem.retrieve, hvs, hsearch]
  · simp
  · intro j hj hj' hnone
    simp only [List.get_eq_getElem, List.getElem_map] at *
    rw [hnone]
    rfl

/-- C10 witness: a store holding a chunk with empty metadata yields a
retrieval result whose source is the string `"unknown"`. -/
theorem retrieve_missing_source_unknown_witness :
    ({ vector_store := some bareStore, documents_processed := 1
        : RAGSystem }.vector_store = some bareStore) ∧
    (bareStore.search [0] 1 = .ok [(bareChunk, 0)]) ∧
    (∃ rs, RAGSystem.retrieve
        { vector_store := some bareStore, documents_processed := 1 }
        (fun _ => [0]) "q" 1 = .ok rs ∧
      rs.length = [(bareChunk, (0 : ℚ))].length ∧
      ∀ j (hj : j < rs.length)
          (hj' : j < [(bareChunk, (0 : ℚ))].length),
        List.lookup "source"
            ([(bareChunk, (0 : ℚ))].get ⟨j, hj'⟩).1.metadata = none →
        (rs.get ⟨j, hj⟩).source = "unknown") :=
  ⟨rfl,
    by simp [bareStore, FAISSVectorStore.search, faissSearch, sqL2,
      searchLoop, pyGetElem],
    retrieve_missing_source_unknown
      { vector_store := some bareStore, documents_processed := 1 }
      bareStore (fun _ => [0]) "q" 1 [(bareChunk, 0)] rfl
      (by simp [bareStore, FAISSVectorStore.search, faissSearch, sqL2,
        searchLoop, pyGetElem])⟩

/-- Length of the embedded `range(0, stop, step)`: the ceiling of
`stop / step`. -/
theorem pyRangeStep_length (stop step : ℕ) :
    (pyRangeStep stop step).length = (stop + step - 1) / step := by
  simp [pyRangeStep]

/-- Element `j` of the embedded `range(0, stop, step)` is `j * step`. -/
theorem pyRangeStep_get (stop step j : ℕ)
    (hj : j < (pyRangeStep stop step).length) :
    (pyRangeStep stop step).get ⟨j, hj⟩ = j * step := by
  simp [pyRangeStep, List.get_eq_getElem]

/-- Arithmetic fact behind loop progress: every window start produced by
`range(0, n, s)` lies strictly below `n`. -/
theorem mul_lt_of_lt_ceilDiv {j n s : ℕ} (hs : 0 < s)
    (hj : j < (n + s - 1) / s) : j * s < n := by
  have h1 : (j + 1) * s ≤ ((n + s - 1) / s) * s :=
    Nat.mul_le_mul_right s hj
  have h2 : ((n + s - 1) / s) * s ≤ n + s - 1 := Nat.div_mul_le_self _ _
  have h4 : j * s + s ≤ n + s - 1 := by
    have : j * s + s = (j + 1) * s := by ring
    rw [this]
    exact h1.trans h2
  omega

/-- C4: for every `chunk_size > overlap ≥ 0` and every text, the chunks of
`chunk_text` have window starts `0, stride, 2·stride, …` with
`stride = chunk_size - overlap` (one chunk per window start below the word
count `N`, i.e. `⌈N / stride⌉` chunks), `end_idx = min(start_idx +
chunk_size, N)`, text equal to the words of the window `[start, end)`
joined by single spaces, and the word at offset `i` sits at position
`i - start` of a chunk's word window exactly when `start ≤ i < end`. -/
theorem chunk_text_spec (chunk_size overlap : ℕ) (text : String)
    (meta : Option (List (String × String)))
    (words : List String) (out : List Chunk)
    (hov : overlap < chunk_size)
    (hw : words = pySplit text)
    (ho : out = (DocumentChunker.init chunk_size overlap).chunk_text text meta) :
    out.length
        = (words.length + (chunk_size - overlap) - 1) / (chunk_size - overlap) ∧
    ∀ j (hj : j < out.length),
      (out.get ⟨j, hj⟩).start_idx = j * (chunk_size - overlap) ∧
      (out.get ⟨j, hj⟩).start_idx < words.length ∧
      (out.get ⟨j, hj⟩).end_idx
          = min ((out.get ⟨j, hj⟩).start_idx + chunk_size) words.length ∧
      (out.get ⟨j, hj⟩).text
          = String.intercalate " "
              ((words.drop (j * (chunk_size - overlap))).take chunk_size) ∧
      (out.get ⟨j, hj⟩).metadata = meta.getD [] ∧
      ∀ i, (out.get ⟨j, hj⟩).start_idx ≤ i → i < (out.get ⟨j, hj⟩).end_idx →
        ((words.drop (j * (chunk_size - overlap))).take
            chunk_size)[i - j * (chunk_size - overlap)]? = words[i]? := by
  have hs : 0 < chunk_size - overlap := by omega
  subst hw
  constructor
  · rw [ho]
    unfold DocumentChunker.chunk_text DocumentChunker.init
    simp [pyRangeStep_length]
  · intro j hj
    have hj' : j < (pyRangeStep (pySplit text).length
        (chunk_size - overlap)).length := by
      rw [ho] at hj
      simpa [DocumentChunker.chunk_text, DocumentChunker.init] using hj
    have hjq : j < ((pySplit text).length + (chunk_size - overlap) - 1)
        / (chunk_size - overlap) := by
      rw [pyRangeStep_length] at hj'
      exact hj'
    have hstart : j * (chunk_size - overlap) < (pySplit text).length :=
      mul_lt_of_lt_ceilDiv hs hjq
    have hget : out.get ⟨j, hj⟩ =
        { text := String.intercalate " "
            (((pySplit text).drop (j * (chunk_size - overlap))).take chunk_size)
          metadata := meta.getD []
          start_idx := j * (chunk_size - overlap)
          end_idx := j * (chunk_size - overlap) +
            (((pySplit text).drop (j * (chunk_size - overlap))).take
              chunk_size).length } := by
      subst ho
      unfold DocumentChunker.chunk_text DocumentChunker.init
      simp only [List.get_eq_getElem, List.getElem_map, pyRangeStep,
        List.getElem_range]
    rw [hget]
    have hlen : (((pySplit text).drop (j * (chunk_size - overlap))).take
        chunk_size).length
        = min chunk_size ((pySplit text).length - j * (chunk_size - overlap)) := by
      simp [List.length_take, List.length_drop]
    refine ⟨rfl, hstart, ?_, rfl, rfl, ?_⟩
    · simp only [hlen]
      omega
    · intro i h1 h2
      simp only at h1 h2
      rw [hlen] at h2
      have hilt : i - j * (chunk_size - overlap) < chunk_size := by omega
      rw [List.getElem?_take_of_lt hilt, List.getElem?_drop]
      congr 1
      omega

/-- C4 witness: the theorem applies to the production configuration
`chunk_size = 500`, `overlap = 50` on a concrete document. -/
theorem chunk_text_spec_witness :
    (50 < 500) ∧
    (pySplit "one two three" = pySplit "one two three") ∧
    ((DocumentChunker.init 500 50).chunk_text "one two three" none
        = (DocumentChunker.init 500 50).chunk_text "one two three" none) ∧
    ((DocumentChunker.init 500 50).chunk_text "one two three" none).length
        = ((pySplit "one two three").length + (500 - 50) - 1) / (500 - 50) ∧
    ∀ j (hj : j < ((DocumentChunker.init 500 50).chunk_text
        "one two three" none).length),
      (((DocumentChunker.init 500 50).chunk_text "one two three" none).get
          ⟨j, hj⟩).start_idx = j * (500 - 50) ∧
      (((DocumentChunker.init 500 50).chunk_text "one two three" none).get
          ⟨j, hj⟩).start_idx < (pySplit "one two three").length ∧
      (((DocumentChunker.init 500 50).chunk_text "one two three" none).get
          ⟨j, hj⟩).end_idx
          = min ((((DocumentChunker.init 500 50).chunk_text
              "one two three" none).get ⟨j, hj⟩).start_idx + 500)
            (pySplit "one two three").length ∧
      (((DocumentChunker.init 500 50).chunk_text "one two three" none).get
          ⟨j, hj⟩).text
          = String.intercalate " "
              (((pySplit "one two three").drop (j * (500 - 50))).take 500) ∧
      (((DocumentChunker.init 500 50).chunk_text "one two three" none).get
          ⟨j, hj⟩).metadata = (none : Option (List (String × String))).getD [] ∧
      ∀ i, (((DocumentChunker.init 500 50).chunk_text "one two three" none).get
            ⟨j, hj⟩).start_idx ≤ i →
          i < (((DocumentChunker.init 500 50).chunk_text
            "one two three" none).get ⟨j, hj⟩).end_idx →
        (((pySplit "one two three").drop (j * (500 - 50))).take
            500)[i - j * (500 - 50)]? = (pySplit "one two three")[i]? :=
  ⟨by decide, rfl, rfl,
    chunk_text_spec 500 50 "one two three" none (pySplit "one two three")
      ((DocumentChunker.init 500 50).chunk_text "one two three" none)
      (by decide) rfl rfl⟩

/-- C5 counterexample: the five-word document `"a b c d e"` is non-empty
and shorter than `chunk_size = 10`, yet with `overlap = 8` (stride 2) the
chunker emits three chunks, not one — the loop advances by
`chunk_size - overlap`, so "shorter than `chunk_size`" does not imply a
single chunk. -/
theorem chunk_short_doc_cex :
    pySplit "a b c d e" ≠ [] ∧
    (pySplit "a b c d e").length < 10 ∧
    ((DocumentChunker.init 10 8).chunk_text "a b c d e" none).length = 3 := by
  refine ⟨by decide, by decide, ?_⟩
  decide

/-- C5 (amended): an empty document yields zero chunks; a non-empty
document with at most `chunk_size - overlap` words yields exactly one
chunk whose text is the whole document's words joined by single spaces;
and for any non-empty document with at most `chunk_size` words the first
chunk still contains the whole document (only the "exactly one" part needs
the stricter `chunk_size - overlap` bound, as the counterexample
forces). -/
theorem chunk_small_doc (chunk_size overlap : ℕ) (text : String)
    (meta : Option (List (String × String)))
    (words : List String) (out : List Chunk)
    (hov : overlap < chunk_size)
    (hw : words = pySplit text)
    (ho : out = (DocumentChunker.init chunk_size overlap).chunk_text text meta) :
    (words = [] → out = []) ∧
    (words ≠ [] → words.length ≤ chunk_size - overlap →
      out = [{ text := String.intercalate " " words
               metadata := meta.getD []
               start_idx := 0
               end_idx := words.length }]) ∧
    (words ≠ [] → words.length ≤ chunk_size →
      ∀ (h0 : 0 < out.length),
        (out.get ⟨0, h0⟩).text = String.intercalate " " words) := by
  have hs : 0 < chunk_size - overlap := by omega
  subst hw
  refine ⟨?_, ?_, ?_⟩
  · intro hnil
    rw [ho]
    unfold DocumentChunker.chunk_text DocumentChunker.init
    have h0 : (pySplit text).length = 0 := by rw [hnil]; rfl
    have : ((pySplit text).length + (chunk_size - overlap) - 1)
        / (chunk_size - overlap) = 0 := by
      rw [h0]
      exact Nat.div_eq_of_lt (by omega)
    simp [pyRangeStep, this]
  · intro hne hle
    have hpos : 0 < (pySplit text).length := List.length_pos.mpr hne
    have hone : ((pySplit text).length + (chunk_size - overlap) - 1)
        / (chunk_size - overlap) = 1 :=
      Nat.div_eq_of_lt_le (by omega) (by omega)
    have htake : (pySplit text).take chunk_size = pySplit text :=
      List.take_of_length_le (by omega)
    rw [ho]
    unfold DocumentChunker.chunk_text DocumentChunker.init
    rw [pyRangeStep, hone]
    have hr : List.range 1 = [0] := rfl
    rw [hr]
    simp only [List.map_cons, List.map_nil, Nat.zero_mul, List.drop_zero, htake]
    simp
  · intro hne hle h0
    subst ho
    have htake : (pySplit text).take chunk_size = pySplit text :=
      List.take_of_length_le hle
    simp only [DocumentChunker.chunk_text, DocumentChunker.init,
      List.get_eq_getElem, List.getElem_map, pyRangeStep,
      List.getElem_range, Nat.zero_mul, List.drop_zero, htake]

/-- C5 witness: with `chunk_size = 10`, `overlap = 8` the two-word
document `"hi there"` (word count `2 ≤ 10 - 8`) yields exactly one chunk
holding the whole document. -/
theorem chunk_small_doc_witness :
    (8 < 10) ∧
    (pySplit "hi there" = pySplit "hi there") ∧
    ((DocumentChunker.init 10 8).chunk_text "hi there" none
        = (DocumentChunker.init 10 8).chunk_text "hi there" none) ∧
    ((pySplit "hi there" = [] →
        (DocumentChunker.init 10 8).chunk_text "hi there" none = []) ∧
      (pySplit "hi there" ≠ [] → (pySplit "hi there").length ≤ 10 - 8 →
        (DocumentChunker.init 10 8).chunk_text "hi there" none
          = [{ text := String.intercalate " " (pySplit "hi there")
               metadata := (none : Option (List (String × String))).getD []
               start_idx := 0
               end_idx := (pySplit "hi there").length }]) ∧
      (pySplit "hi there" ≠ [] → (pySplit "hi there").length ≤ 10 →
        ∀ (h0 : 0 < ((DocumentChunker.init 10 8).chunk_text
            "hi there" none).length),
          (((DocumentChunker.init 10 8).chunk_text "hi there" none).get
              ⟨0, h0⟩).text = String.intercalate " " (pySplit "hi there"))) :=
  ⟨by decide, rfl, rfl,
    chunk_small_doc 10 8 "hi there" none (pySplit "hi there")
      ((DocumentChunker.init 10 8).chunk_text "hi there" none)
      (by decide) rfl rfl⟩

/-- Unfolding of the `/ask` provenance scan: the tag is `"documents"`
exactly when some turn of the scanned history has role `tool`. -/
theorem determineSource_eq_documents_iff (h : List Msg) :
    determineSource h = "documents" ↔ ∃ m ∈ h, m.role = .tool := by
  unfold determineSource
  split
  · next hany =>
    refine iff_of_true rfl ?_
    rcases List.any_eq_true.mp hany with ⟨m, hm, hdec⟩
    exact ⟨m, hm, of_decide_eq_true hdec⟩
  · next hany =>
    refine iff_of_false (by decide) ?_
    rintro ⟨m, hm, hr⟩
    exact hany (List.any_eq_true.mpr ⟨m, hm, decide_eq_true hr⟩)

/-- C9 counterexample: in a session whose first request (`"T"`) triggers a
retrieval tool call and whose second request (`"U"`) triggers none, the
second response is tagged `"documents"` even though not a single turn
appended during the second request has role `tool` (the second request
only appends its user turn and an assistant turn on top of the first
request's history) — the scan covers the whole session history, not the
turns produced during this request's processing. -/
theorem provenance_not_per_request_cex :
    (ask cexComplete demoRunTool
        (ask cexComplete demoRunTool [] "T").2.2 "U").2.1 = "documents" ∧
    ((ask cexComplete demoRunTool
        (ask cexComplete demoRunTool [] "T").2.2 "U").2.2.drop
          (ask cexComplete demoRunTool [] "T").2.2.length).all
        (fun m => !(m.role == .tool)) = true ∧
    (ask cexComplete demoRunTool
        (ask cexComplete demoRunTool [] "T").2.2 "U").2.2.take
          (ask cexComplete demoRunTool [] "T").2.2.length
        = (ask cexComplete demoRunTool [] "T").2.2 := by
  refine ⟨?_, ?_, ?_⟩ <;> decide

/-- C9 (amended): the provenance tag of an `/ask` response is
`"documents"` if and only if at least one turn of the agent's entire
session history after the request has role `tool` — not only the turns
produced during this request's processing.  Consequently a request whose
model response carries no tool call is tagged by whether the *prior*
history already contained a tool turn (so it is `"llm"` on a fresh
session), and a request whose model response carries one
`search_documents` tool call appends four turns (user, assistant with the
tool call, tool result, final assistant) and is always tagged
`"documents"`; the spec's two-request scenario (no tool call, then one
tool call: tags `llm` then `documents`, six turns in total) follows. -/
theorem provenance_scans_whole_history
    (complete : Bool → List Msg → LLMMessage) (runTool : String → String)
    (hist : List Msg) (q : String) (tc : ToolCall)
    (hname : tc.fname = "search_documents") :
    ((ask complete runTool hist q).2.1 = "documents" ↔
      ∃ m ∈ (ask complete runTool hist q).2.2, m.role = .tool) ∧
    ((complete true (systemMsg ::
        (hist ++ [{ role := .user, content := q }]))).tool_calls = [] →
      (ask complete runTool hist q).2.2
          = hist ++ [{ role := .user, content := q },
              { role := .assistant,
                content := (complete true (systemMsg ::
                  (hist ++ [{ role := .user, content := q }]))).content }] ∧
      ((ask complete runTool hist q).2.1 = "documents" ↔
        ∃ m ∈ hist, m.role = .tool)) ∧
    ((complete true (systemMsg ::
        (hist ++ [{ role := .user, content := q }]))).tool_calls = [tc] →
      (ask complete runTool hist q).2.2.length = hist.length + 4 ∧
      (ask complete runTool hist q).2.1 = "documents") := by
  refine ⟨determineSource_eq_documents_iff _, ?_, ?_⟩
  · intro h1
    have hpq : RAGAgent.process_query complete runTool hist q =
        ((complete true (systemMsg ::
            (hist ++ [{ role := .user, content := q }]))).content,
         hist ++ [{ role := .user, content := q },
            { role := .assistant,
              content := (complete true (systemMsg ::
                (hist ++ [{ role := .user, content := q }]))).content }]) := by
      simp [RAGAgent.process_query, h1]
    constructor
    · show (RAGAgent.process_query complete runTool hist q).2 = _
      rw [hpq]
    · show determineSource (RAGAgent.process_query complete runTool hist q).2
          = "documents" ↔ _
      rw [hpq, determineSource_eq_documents_iff]
      constructor
      · rintro ⟨m, hm, hr⟩
        rcases List.mem_append.mp hm with hm' | hm'
        · exact ⟨m, hm', hr⟩
        · rcases List.mem_cons.mp hm' with rfl | hm''
          · simp at hr
          · rcases List.mem_cons.mp hm'' with rfl | hm'''
            · simp at hr
            · exact absurd hm''' (List.not_mem_nil m)
      · rintro ⟨m, hm, hr⟩
        exact ⟨m, List.mem_append.mpr (Or.inl hm), hr⟩
  · intro h2
    have hfil : (fun tc' : ToolCall =>
        decide (tc'.fname = "search_documents")) tc = true := by
      simp [hname]
    have hpq : RAGAgent.process_query complete runTool hist q =
        ((complete false (systemMsg ::
            (hist ++ [{ role := .user, content := q },
              { role := .assistant,
                content := (complete true (systemMsg ::
                  (hist ++ [{ role := .user, content := q }]))).content,
                tool_calls := [tc] },
              { role := .tool, content := runTool tc.arguments,
                tool_call_id := some tc.id }]))).content,
         hist ++ [{ role := .user, content := q },
            { role := .assistant,
              content := (complete true (systemMsg ::
                (hist ++ [{ role := .user, content := q }]))).content,
              tool_calls := [tc] },
            { role := .tool, content := runTool tc.arguments,
              tool_call_id := some tc.id },
            { role := .assistant,
              content := (complete false (systemMsg ::
                (hist ++ [{ role := .user, content := q },
                  { role := .assistant,
                    content := (complete true (systemMsg ::
                      (hist ++ [{ role := .user, content := q }]))).content,
                    tool_calls := [tc] },
                  { role := .tool, content := runTool tc.arguments,
                    tool_call_id := some tc.id }]))).content }]) := by
      simp [RAGAgent.process_query, h2, List.filter_cons, hfil]
    constructor
    · show (RAGAgent.process_query complete runTool hist q).2.length = _
      rw [hpq]
      simp
    · show determineSource (RAGAgent.process_query complete runTool hist q).2
          = "documents"
      rw [hpq, determineSource_eq_documents_iff]
      refine ⟨{ role := .tool, content := runTool tc.arguments,
                tool_call_id := some tc.id }, ?_, rfl⟩
      simp

/-- C9 witness: the amended theorem applied to a concrete oracle realising
the spec scenario — in a fresh session, `"What is AI?"` draws no tool call
and is tagged `llm`; the follow-up `"How many remote days?"` draws one
`search_documents` call, the history grows from 2 to 6 turns, and the
response is tagged `documents`. -/
theorem provenance_scans_whole_history_witness :
    (ToolCall.mk "call_1" "search_documents" "remote days").fname
        = "search_documents" ∧
    ((ask scenComplete demoRunTool [] "What is AI?").2.1 = "llm" ∧
      (ask scenComplete demoRunTool [] "What is AI?").2.2.length = 2) ∧
    ((ask scenComplete demoRunTool
          (ask scenComplete demoRunTool [] "What is AI?").2.2
          "How many remote days?").2.2.length
        = (ask scenComplete demoRunTool [] "What is AI?").2.2.length + 4 ∧
      (ask scenComplete demoRunTool
          (ask scenComplete demoRunTool [] "What is AI?").2.2
          "How many remote days?").2.1 = "documents") :=
  ⟨rfl, ⟨by decide, by decide⟩,
    (provenance_scans_whole_history scenComplete demoRunTool
      (ask scenComplete demoRunTool [] "What is AI?").2.2
      "How many remote days?"
      (ToolCall.mk "call_1" "search_documents" "remote days") rfl).2.2
      (by decide)⟩

end RagSpec
